import Mathlib

/-!
Shallow embedding of the corhyn task-management core (src/corhyn/cli.py).

Conventions used throughout:
* Timestamps are modelled as natural numbers (seconds).  The source stores
  ISO-8601 strings produced by one monotone clock; comparison of such strings
  is order-isomorphic to comparison of the instants, so all range predicates
  (created_at >= boundary, ORDER BY start_time, ...) translate directly.
* SQLite rows are Lean structures whose fields are exactly the columns that
  init_db declares.  Column lists are transcribed from init_db so that a SQL
  statement referencing a column outside its table's list is modelled as an
  OperationalError, which is what sqlite3 raises at run time.
* SQL NULL is Option.none; aggregates (AVG, SUM, GROUP_CONCAT) return none on
  empty input, as in SQLite.
* Python str.split(sep) / str.strip() are embedded as executable functions on
  the character list of the string, so concrete instances evaluate by decide.
-/

namespace Corhyn

/-! ### Schema, transcribed from init_db (cli.py lines 21-73) -/

def tasksColumns : List String :=
  ["id", "title", "description", "priority", "deadline", "status", "created_at"]

def timeEntriesColumns : List String :=
  ["id", "task_id", "start_time", "duration", "notes"]

def tagsColumns : List String :=
  ["id", "name", "color", "created_at"]

def taskTagsColumns : List String :=
  ["task_id", "tag_id"]

structure Task where
  id : Nat
  title : String
  description : Option String
  priority : Option String
  deadline : Option String
  status : String
  created_at : Nat
deriving DecidableEq

structure Tag where
  id : Nat
  name : String
  color : Option String
  created_at : Nat
deriving DecidableEq

structure TimeEntry where
  id : Nat
  task_id : Nat
  start_time : Nat
  duration : Option Int
  notes : Option String
deriving DecidableEq

structure Db where
  tasks : List Task
  tags : List Tag
  task_tags : List (Nat × Nat)
  time_entries : List TimeEntry
deriving DecidableEq

/-- Well-formedness of a database state: the uniqueness properties that the
schema's PRIMARY KEY / UNIQUE constraints guarantee. -/
def Db.wf (db : Db) : Prop :=
  (db.tasks.map Task.id).Nodup ∧
  (db.tags.map Tag.id).Nodup ∧
  (db.tags.map Tag.name).Nodup ∧
  db.task_tags.Nodup ∧
  (db.time_entries.map TimeEntry.id).Nodup

instance (db : Db) : Decidable db.wf := by
  unfold Db.wf; infer_instance

/-- Outcomes a command can produce.  operationalError carries the offending
column name (sqlite3.OperationalError: no such column).  formatTypeError is
the TypeError Python raises when a None value meets a numeric format spec.
noChanges is the distinct "No changes provided" report of edit. -/
inductive CliError where
  | validationError
  | notFound
  | noActiveSession
  | noChanges
  | operationalError (column : String)
  | formatTypeError
deriving DecidableEq

inductive CliResult (α : Type) where
  | ok (value : α)
  | err (e : CliError)
deriving DecidableEq

/-! ### Python string helpers (str.split(',') and str.strip()) -/

/-- Python list.split(sep) on character lists: splits at every separator,
keeping empty fragments (so "".split(",") = [""]). -/
def splitCommaAux (sep : Char) : List Char → List Char → List (List Char)
  | [], acc => [acc.reverse]
  | c :: cs, acc =>
    if c = sep then acc.reverse :: splitCommaAux sep cs []
    else splitCommaAux sep cs (c :: acc)

def splitComma (s : String) : List String :=
  (splitCommaAux ',' s.data []).map (fun cs => String.mk cs)

/-- Python str.strip(): drop leading and trailing whitespace. -/
def pyStrip (s : String) : String :=
  String.mk (((s.data.dropWhile Char.isWhitespace).reverse.dropWhile
    Char.isWhitespace).reverse)

/-- Python truthiness of an optional string (None and "" are falsy). -/
def truthy : Option String → Bool
  | none => false
  | some s => s != ""

def statusAllowed (s : String) : Bool :=
  s == "pending" || s == "completed"

def priorityAllowed (p : String) : Bool :=
  p == "low" || p == "medium" || p == "high"

/-! ### Tag resolver: _get_or_create_tags (cli.py lines 747-772) -/

/-- The lastrowid bookkeeping of the tags table: existing rows plus the id the
next INSERT will receive. -/
structure TagsState where
  tags : List Tag
  nextId : Nat
deriving DecidableEq

def TagsState.wf (st : TagsState) : Prop :=
  (st.tags.map Tag.name).Nodup ∧ ∀ tg ∈ st.tags, tg.id < st.nextId

instance (st : TagsState) : Decidable st.wf := by
  unfold TagsState.wf; infer_instance

/-- The loop body of _get_or_create_tags over the fragments of the split. -/
def getOrCreateTagsGo (now : Nat) : TagsState → List String → List Nat × TagsState
  | st, [] => ([], st)
  | st, n :: rest =>
    let n := pyStrip n
    if n = "" then getOrCreateTagsGo now st rest
    else
      match st.tags.find? (fun tg => tg.name == n) with
      | some tg =>
        let r := getOrCreateTagsGo now st rest
        (tg.id :: r.1, r.2)
      | none =>
        let newTag : Tag := ⟨st.nextId, n, none, now⟩
        let r := getOrCreateTagsGo now ⟨st.tags ++ [newTag], st.nextId + 1⟩ rest
        (newTag.id :: r.1, r.2)

/-- _get_or_create_tags(cursor, tag_names): returns the tag ids for a
comma-separated tag string, creating missing tags with created_at = now. -/
def getOrCreateTags (st : TagsState) (now : Nat) (tagNames : String) :
    List Nat × TagsState :=
  if tagNames = "" then ([], st)
  else getOrCreateTagsGo now st (splitComma tagNames)

/-- The fragments the loop retains: split on commas, stripped, empties
skipped. -/
def retainedNames (s : String) : List String :=
  ((splitComma s).map pyStrip).filter (fun n => n != "")

/-- The id the resolver associates with a name in a tag table (first row whose
name matches; unique when names are Nodup). -/
def idOfName (st : TagsState) (n : String) : Nat :=
  match st.tags.find? (fun tg => tg.name == n) with
  | some tg => tg.id
  | none => 0

/-! ### Sorting (ORDER BY), as a structural insertion sort -/

def insertBy {α : Type} (le : α → α → Bool) (a : α) : List α → List α
  | [] => [a]
  | b :: bs => if le a b then a :: b :: bs else b :: insertBy le a bs

def sortBy {α : Type} (le : α → α → Bool) : List α → List α
  | [] => []
  | a :: as => insertBy le a (sortBy le as)

/-! ### The list command (cli.py lines 118-223) -/

/-- The tag names attached to a task: task_tags rows for the task joined to
the tags table (LEFT JOIN task_tags / LEFT JOIN tags of the list query). -/
def taskTagNames (db : Db) (taskId : Nat) : List String :=
  (db.task_tags.filter (fun tt => tt.1 == taskId)).filterMap
    (fun tt => (db.tags.find? (fun tg => tg.id == tt.2)).map Tag.name)

/-- GROUP_CONCAT with the default "," separator: NULL for an empty group. -/
def joinComma : List String → String
  | [] => ""
  | [n] => n
  | n :: ns => n ++ "," ++ joinComma ns

/-- The tag_names column of the list query: GROUP_CONCAT(tg.name) over the
task's group. -/
def groupConcatNames (db : Db) (taskId : Nat) : Option String :=
  match taskTagNames db taskId with
  | [] => none
  | ns => some (joinComma ns)

/-- The distinct values of a list of names (set of names; keeps the last
occurrence of each).  Only its length and membership matter: it models
COUNT(DISTINCT tg.name). -/
def distinctNames : List String → List String
  | [] => []
  | n :: ns => if ns.contains n then distinctNames ns else n :: distinctNames ns

/-- tag_list = [tag.strip() for tag in tags.split(',')] (cli.py line 155). -/
def splitTagsParam (s : String) : List String :=
  (splitComma s).map pyStrip

/-- COUNT(DISTINCT tg.name) of the filter subquery for one task: the number of
distinct tag names, drawn from the requested list, attached to the task. -/
def matchingDistinctCount (db : Db) (taskId : Nat) (req : List String) : Nat :=
  (distinctNames ((taskTagNames db taskId).filter (fun n => req.contains n))).length

/-- The WHERE clause of the list query, one task at a time:
pending restriction unless --show-completed, optional exact status and
priority matches, and the tag-intersection subquery (HAVING
COUNT(DISTINCT tg.name) = number of requested tags). -/
def rowCond (db : Db) (statusP priorityP tagsP : Option String)
    (showCompleted : Bool) (t : Task) : Bool :=
  (showCompleted || t.status == "pending")
  && (match statusP with
      | some s => if s == "" then true else t.status == s
      | none => true)
  && (match priorityP with
      | some p => if p == "" then true else t.priority == some p
      | none => true)
  && (match tagsP with
      | some s =>
        if s == "" then true
        else matchingDistinctCount db t.id (splitTagsParam s)
          == (splitTagsParam s).length
      | none => true)

structure ListRow where
  task : Task
  tag_names : Option String
deriving DecidableEq

/-- ORDER BY t.created_at DESC. -/
def createdDesc (a b : Task) : Bool :=
  decide (b.created_at ≤ a.created_at)

/-- The list command.  Validation errors mirror the early returns of the
source; the result rows are the filtered tasks, newest first, each carrying
the GROUP_CONCAT of its tag names. -/
def listTasks (db : Db) (statusP priorityP tagsP : Option String)
    (showCompleted : Bool) : CliResult (List ListRow) :=
  if truthy statusP && !(statusAllowed (statusP.getD "")) then
    .err .validationError
  else if truthy priorityP && !(priorityAllowed (priorityP.getD "")) then
    .err .validationError
  else
    .ok ((sortBy createdDesc
        (db.tasks.filter (rowCond db statusP priorityP tagsP showCompleted))).map
      (fun t => ⟨t, groupConcatNames db t.id⟩))

/-! ### The stop command (cli.py lines 248-280) -/

/-- Columns referenced by the SELECT of stop; end_time appears in its WHERE
clause although init_db gives time_entries no such column. -/
def stopSelectColumns : List String :=
  ["id", "task_id", "start_time", "end_time"]

def startDesc (a b : TimeEntry) : Bool :=
  decide (b.start_time ≤ a.start_time)

/-- stop(): the source first runs
SELECT ... FROM time_entries WHERE end_time IS NULL ORDER BY start_time DESC.
The schema has no end_time column, so executing that statement raises
OperationalError before anything else can happen; the remaining branch
transcribes what the statement asks for (latest open entry, duration =
now - start_time in whole seconds) and is unreachable. -/
def stop (db : Db) (now : Nat) : CliResult (Int × Db) :=
  match stopSelectColumns.find? (fun c => !(timeEntriesColumns.contains c)) with
  | some c => .err (.operationalError c)
  | none =>
    match sortBy startDesc (db.time_entries.filter (fun te => te.duration.isNone)) with
    | [] => .err .noActiveSession
    | entry :: _ =>
      let d : Int := (now : Int) - (entry.start_time : Int)
      .ok (d, { db with time_entries := db.time_entries.map (fun te =>
        if te.id == entry.id then { te with duration := some d } else te) })

/-! ### The status command (cli.py lines 481-512) -/

/-- Columns referenced by the UPDATE of the status command; completed_at is
not a column of the tasks table init_db creates. -/
def statusUpdateColumns : List String :=
  ["status", "completed_at", "id"]

/-- status(task_id, status): validates the status value, checks existence,
then runs UPDATE tasks SET status = ?, completed_at = ? WHERE id = ?.
That UPDATE names completed_at, which the schema lacks, so it raises
OperationalError; the ok branch (unreachable, and unable to store a
completed_at since the row has no such field) transcribes the status write. -/
def setStatus (db : Db) (taskId : Nat) (newStatus : String) (now : Nat) :
    CliResult Db :=
  if !(statusAllowed newStatus) then .err .validationError
  else if !(db.tasks.any (fun t => t.id == taskId)) then .err .notFound
  else
    match statusUpdateColumns.find? (fun c => !(tasksColumns.contains c)) with
    | some c => .err (.operationalError c)
    | none =>
      .ok { db with tasks := db.tasks.map (fun t =>
        if t.id == taskId then { t with status := newStatus } else t) }

/-! ### The edit command (cli.py lines 514-576) -/

/-- The SET-clause column list edit builds from the supplied options (is-not-None
checks, in source order); note the "tags" entry targets a column the tasks
table does not have. -/
def editFieldColumns (title description priority deadline tags : Option String) :
    List String :=
  (if title.isSome then ["title"] else [])
  ++ (if description.isSome then ["description"] else [])
  ++ (if priority.isSome then ["priority"] else [])
  ++ (if deadline.isSome then ["deadline"] else [])
  ++ (if tags.isSome then ["tags"] else [])

/-- edit(task_id, ...): priority validation, existence check, the distinct
"No changes provided" report when nothing is supplied, then the dynamic
UPDATE.  Supplying tags makes the UPDATE reference the nonexistent column
"tags", an OperationalError; otherwise exactly the supplied fields are
written and all others kept. -/
def edit (db : Db) (taskId : Nat)
    (title description priority deadline tags : Option String) : CliResult Db :=
  if truthy priority && !(priorityAllowed (priority.getD "")) then
    .err .validationError
  else if !(db.tasks.any (fun t => t.id == taskId)) then .err .notFound
  else
    let fields := editFieldColumns title description priority deadline tags
    if fields.isEmpty then .err .noChanges
    else
      match (fields ++ ["id"]).find? (fun c => !(tasksColumns.contains c)) with
      | some c => .err (.operationalError c)
      | none =>
        .ok { db with tasks := db.tasks.map (fun t =>
          if t.id == taskId then
            { t with
              title := title.getD t.title,
              description := match description with
                | some d => some d
                | none => t.description,
              priority := match priority with
                | some p => some p
                | none => t.priority,
              deadline := match deadline with
                | some d => some d
                | none => t.deadline }
          else t) }

/-! ### The delete command (cli.py lines 578-606), force path -/

/-- delete(task_id, force=True): existence check, then
DELETE FROM tasks WHERE id = ? — the only statement executed; no statement
touches task_tags or time_entries, and sqlite3 runs with foreign-key
enforcement off and no ON DELETE CASCADE in the schema. -/
def deleteTask (db : Db) (taskId : Nat) : CliResult Db :=
  if !(db.tasks.any (fun t => t.id == taskId)) then .err .notFound
  else .ok { db with tasks := db.tasks.filter (fun t => !(t.id == taskId)) }

/-! ### The stats command, overview rate (cli.py lines 307-315 and 369-378) -/

/-- SQL AVG: NULL on an empty set of rows, else the mean. -/
def sqlAvgRat (xs : List ℚ) : Option ℚ :=
  if xs.isEmpty then none else some (xs.sum / (xs.length : ℚ))

/-- The tasks the period covers: WHERE created_at >= boundary. -/
def tasksInPeriod (db : Db) (boundary : Nat) : List Task :=
  db.tasks.filter (fun t => decide (boundary ≤ t.created_at))

/-- completion_rate of the overview query:
AVG(CASE WHEN status = 'completed' THEN 1 ELSE 0 END) * 100 over the period's
tasks — SQL NULL (none) when the period holds no task. -/
def completionRate (db : Db) (boundary : Nat) : Option ℚ :=
  (sqlAvgRat ((tasksInPeriod db boundary).map
    (fun t => if t.status == "completed" then (1 : ℚ) else 0))).map
    (fun r => r * 100)

/-- The overview panel formats the rate with the "%.1f" format spec
(f-string at cli.py line 373).  Formatting a NULL (Python None) with a float
format spec raises TypeError, modelled as formatTypeError. -/
def renderCompletionRate : Option ℚ → CliResult ℚ
  | none => .err .formatTypeError
  | some r => .ok r

/-! ### The time command queries (cli.py lines 789-798, 848-857, 909-919) -/

/-- The inner join of a time entry with the tasks table:
JOIN tasks t ON te.task_id = t.id. -/
def joinedTask (db : Db) (te : TimeEntry) : Option Task :=
  db.tasks.find? (fun t => t.id == te.task_id)

structure TimeListRow where
  entry_id : Nat
  title : String
  start_time : Nat
  duration : Option Int
  notes : Option String
deriving DecidableEq

def startAsc (a b : TimeEntry) : Bool :=
  decide (a.start_time ≤ b.start_time)

/-- time --list: entries joined to their task, newest first. -/
def timeListRows (db : Db) : List TimeListRow :=
  (sortBy startDesc db.time_entries).filterMap
    (fun te => (joinedTask db te).map (fun t =>
      ⟨te.id, t.title, te.start_time, te.duration, te.notes⟩))

/-- duration_minutes = entry[2] / 60 if entry[2] else 0 (cli.py line 869). -/
def exportMinutes : Option Int → ℚ
  | some s => if s == 0 then 0 else (s : ℚ) / 60
  | none => 0

structure ExportRow where
  title : String
  start_time : Nat
  minutes : ℚ
  notes : String
deriving DecidableEq

def mkExportRow (t : Task) (te : TimeEntry) : ExportRow :=
  ⟨t.title, te.start_time, exportMinutes te.duration, te.notes.getD ""⟩

/-- time --export: entries joined to their task, oldest first, serialized as
(title, start time, duration in minutes, notes). -/
def timeExportRows (db : Db) : List ExportRow :=
  (sortBy startAsc db.time_entries).filterMap
    (fun te => (joinedTask db te).map (fun t => mkExportRow t te))

/-- The rows of one task's group in the report query: its joined entries with
te.start_time >= boundary. -/
def entriesOfTask (db : Db) (boundary : Nat) (taskId : Nat) : List TimeEntry :=
  db.time_entries.filter
    (fun te => te.task_id == taskId && decide (boundary ≤ te.start_time))

/-- SQL SUM over an integer column: NULL when no non-NULL value exists. -/
def sqlSumInt (xs : List Int) : Option Int :=
  match xs with
  | [] => none
  | _ => some xs.sum

structure ReportRow where
  title : String
  sessions : Nat
  total_time : Option Int
deriving DecidableEq

def mkReportRow (db : Db) (boundary : Nat) (t : Task) : ReportRow :=
  ⟨t.title, (entriesOfTask db boundary t.id).length,
    sqlSumInt ((entriesOfTask db boundary t.id).filterMap TimeEntry.duration)⟩

def totalDesc (a b : ReportRow) : Bool :=
  decide (b.total_time.getD 0 ≤ a.total_time.getD 0)

/-- time --report, the per-task table: GROUP BY t.id over the inner join with
the period restriction, ORDER BY total_time DESC.  A task with no row in the
join forms no group. -/
def timeReportByTask (db : Db) (boundary : Nat) : List ReportRow :=
  sortBy totalDesc (db.tasks.filterMap (fun t =>
    match entriesOfTask db boundary t.id with
    | [] => none
    | _ => some (mkReportRow db boundary t)))

/-! ### Concrete states used to instantiate the theorems -/

def dbEmpty : Db := ⟨[], [], [], []⟩

def taskXYZ : Task := ⟨1, "T1", none, none, none, "pending", 100⟩

/-- One task tagged x, y, z; a fourth tag w exists but is not attached. -/
def dbTagDemo : Db :=
  ⟨[taskXYZ],
   [⟨1, "x", none, 0⟩, ⟨2, "y", none, 0⟩, ⟨3, "z", none, 0⟩, ⟨4, "w", none, 0⟩],
   [(1, 1), (1, 2), (1, 3)], []⟩

def rowXYZ : ListRow := ⟨taskXYZ, some "x,y,z"⟩

def taskDone : Task := ⟨1, "T", none, none, none, "completed", 5⟩

def dbCompleted : Db := ⟨[taskDone], [], [], []⟩

def dbOneTask : Db := ⟨[⟨1, "T", none, none, none, "pending", 0⟩], [], [], []⟩

def dbOpenEntry : Db :=
  ⟨[⟨1, "T", none, none, none, "pending", 0⟩], [], [], [⟨1, 1, 10, none, none⟩]⟩

/-- One task, one tag, one TaskTag link, one closed TimeEntry. -/
def dbLinked : Db :=
  ⟨[⟨1, "T", none, none, none, "pending", 0⟩], [⟨1, "x", none, 0⟩], [(1, 1)],
   [⟨1, 1, 5, some 60, none⟩]⟩

def dbLinkedAfter : Db :=
  ⟨[], [⟨1, "x", none, 0⟩], [(1, 1)], [⟨1, 1, 5, some 60, none⟩]⟩

def stEmptyTags : TagsState := ⟨[], 1⟩

def orphanEntry : TimeEntry := ⟨2, 99, 6, some 30, none⟩

/-- One task with one entry, plus an entry whose task_id 99 matches no task. -/
def dbOrphan : Db :=
  ⟨[⟨1, "T", none, none, none, "pending", 0⟩], [], [],
   [⟨1, 1, 5, some 60, none⟩, orphanEntry]⟩

/-! ### Helper lemmas -/

theorem mem_insertBy {α : Type} (le : α → α → Bool) (x a : α) (l : List α) :
    a ∈ insertBy le x l ↔ a = x ∨ a ∈ l := by
  induction l with
  | nil => simp [insertBy]
  | cons b bs ih =>
    unfold insertBy
    split
    · simp
    · simp only [List.mem_cons, ih]
      tauto

theorem mem_sortBy {α : Type} (le : α → α → Bool) (a : α) (l : List α) :
    a ∈ sortBy le l ↔ a ∈ l := by
  induction l with
  | nil => simp [sortBy]
  | cons b bs ih => simp [sortBy, mem_insertBy, ih]

theorem insertBy_perm {α : Type} (le : α → α → Bool) (x : α) (l : List α) :
    (insertBy le x l).Perm (x :: l) := by
  induction l with
  | nil => simp [insertBy]
  | cons b bs ih =>
    unfold insertBy
    split
    · exact List.Perm.refl _
    · exact (List.Perm.cons b ih).trans (List.Perm.swap x b bs)

theorem sortBy_perm {α : Type} (le : α → α → Bool) (l : List α) :
    (sortBy le l).Perm l := by
  induction l with
  | nil => simp [sortBy]
  | cons b bs ih => exact (insertBy_perm le b (sortBy le bs)).trans (ih.cons b)

/-- In a list whose images under a key function are Nodup, find? by an
element's key returns that element. -/
theorem find?_key_eq {α κ : Type} [DecidableEq κ] (key : α → κ) (l : List α)
    (a : α) (hnd : (l.map key).Nodup) (ha : a ∈ l) :
    l.find? (fun x => key x == key a) = some a := by
  induction l with
  | nil => cases ha
  | cons b bs ih =>
    simp only [List.map_cons, List.nodup_cons] at hnd
    rcases List.mem_cons.mp ha with hab | ha'
    · subst hab
      simp [List.find?]
    · have hne : key b ≠ key a := by
        intro h
        exact hnd.1 (h ▸ List.mem_map_of_mem key ha')
      have hfe : (key b == key a) = false := by simpa using hne
      simp only [List.find?, hfe]
      exact ih hnd.2 ha'

/-- The membership characterization of the list command's output. -/
theorem listTasks_ok_iff (db : Db) (sP pP tP : Option String) (sc : Bool)
    (rows : List ListRow) (t : Task)
    (hrun : listTasks db sP pP tP sc = .ok rows) :
    (∃ r ∈ rows, r.task = t) ↔
      t ∈ db.tasks ∧ rowCond db sP pP tP sc t = true := by
  unfold listTasks at hrun
  split at hrun
  · simp at hrun
  split at hrun
  · simp at hrun
  injection hrun with hrows
  subst hrows
  constructor
  · rintro ⟨r, hr, hrt⟩
    rcases List.mem_map.mp hr with ⟨t', ht', rfl⟩
    rcases (mem_sortBy _ _ _).mp ht' with ht''
    rcases List.mem_filter.mp ht'' with ⟨hmem, hcond⟩
    cases hrt
    exact ⟨hmem, hcond⟩
  · rintro ⟨hmem, hcond⟩
    exact ⟨⟨t, groupConcatNames db t.id⟩,
      List.mem_map_of_mem _ ((mem_sortBy _ _ _).mpr
        (List.mem_filter.mpr ⟨hmem, hcond⟩)), rfl⟩

/-! ### Claim C1: tag-intersection filter of the list command -/

/-- C1: a task is returned by the list command's tag filter iff the number of
distinct tag names, drawn from the requested list, attached to it equals the
number of requested tag names. -/
theorem list_tag_filter_is_distinct_count (db : Db) (s : String)
    (rows : List ListRow) (t : Task)
    (hrun : listTasks db none none (some s) true = .ok rows) (hs : s ≠ "") :
    (∃ r ∈ rows, r.task = t) ↔
      t ∈ db.tasks ∧
        matchingDistinctCount db t.id (splitTagsParam s) =
          (splitTagsParam s).length := by
  rw [listTasks_ok_iff db none none (some s) true rows t hrun]
  have hse : (s == "") = false := by simpa using hs
  simp [rowCond, hse]

/-- Witness for C1: the task tagged x, y, z is returned when filtering by
"x,y" and not returned when filtering by "x,w". -/
theorem list_tag_filter_is_distinct_count_witness :
    (∃ r ∈ [rowXYZ], r.task = taskXYZ) ∧
      ¬ (∃ r ∈ ([] : List ListRow), r.task = taskXYZ) := by
  constructor
  · exact (list_tag_filter_is_distinct_count dbTagDemo "x,y" [rowXYZ] taskXYZ
      (by decide) (by decide)).mpr (by decide)
  · intro h
    exact absurd ((list_tag_filter_is_distinct_count dbTagDemo "x,w" [] taskXYZ
      (by decide) (by decide)).mp h) (by decide)

/-! ### Claim C7: status filter versus the default pending restriction -/

/-- C7 counterexample: a completed task is NOT returned when the caller
explicitly supplies status=completed but leaves --show-completed unset;
the WHERE clause becomes status = 'pending' AND status = 'completed'. -/
theorem list_status_completed_hidden_by_default :
    listTasks dbCompleted (some "completed") none none false = .ok [] ∧
    taskDone ∈ dbCompleted.tasks ∧ taskDone.status = "completed" := by
  exact ⟨by decide, by decide, by decide⟩

/-- C7 amended: the status filter is an exact match, but the default
restriction to pending is conjoined whenever --show-completed is unset, even
when the caller explicitly supplies status=completed. -/
theorem list_status_filter_conjoined_with_default (db : Db) (s : String)
    (sc : Bool) (rows : List ListRow) (t : Task)
    (hs : statusAllowed s = true)
    (hrun : listTasks db (some s) none none sc = .ok rows) :
    (∃ r ∈ rows, r.task = t) ↔
      t ∈ db.tasks ∧ t.status = s ∧ (sc = true ∨ t.status = "pending") := by
  rw [listTasks_ok_iff db (some s) none none sc rows t hrun]
  have hs' : s = "pending" ∨ s = "completed" := by
    simpa [statusAllowed] using hs
  have hse : (s == "") = false := by
    rcases hs' with h | h <;> simp [h]
  constructor
  · rintro ⟨hmem, hcond⟩
    simp [rowCond, hse] at hcond
    exact ⟨hmem, hcond.2, hcond.1⟩
  · rintro ⟨hmem, hst, hdef⟩
    refine ⟨hmem, ?_⟩
    simp [rowCond, hse]
    exact ⟨hdef, hst⟩

/-- Witness for C7's amended theorem, at a database holding one completed
task: with --show-completed set, status=completed returns it. -/
theorem list_status_filter_conjoined_with_default_witness :
    (∃ r ∈ [(⟨taskDone, none⟩ : ListRow)], r.task = taskDone) ↔
      taskDone ∈ dbCompleted.tasks ∧ taskDone.status = "completed" ∧
        (true = true ∨ taskDone.status = "pending") :=
  list_status_filter_conjoined_with_default dbCompleted "completed" true
    [⟨taskDone, none⟩] taskDone (by decide) (by decide)

/-! ### Claim C6: delete does not cascade -/

/-- C6 counterexample: deleting task 1, which carries the TaskTag link (1,1),
leaves that link in the store — the cascade the claim asserts does not
happen. -/
theorem delete_leaves_task_tag_links :
    deleteTask dbLinked 1 = .ok dbLinkedAfter ∧
    dbLinkedAfter.task_tags = [(1, 1)] ∧
    dbLinkedAfter.task_tags ≠ [] := by
  exact ⟨by decide, by decide, by decide⟩

/-- C6 amended: delete(task_id) removes only the task row; its TaskTag links
and its TimeEntry rows are both left in place (orphaned), and deleting an
absent id fails with NotFound. -/
theorem delete_removes_only_task_row (db : Db) (taskId : Nat) :
    (∀ db', deleteTask db taskId = .ok db' →
      db'.tags = db.tags ∧ db'.task_tags = db.task_tags ∧
      db'.time_entries = db.time_entries ∧
      ∀ t : Task, t ∈ db'.tasks ↔ t ∈ db.tasks ∧ t.id ≠ taskId) ∧
    (deleteTask db taskId = .err .notFound ↔ ∀ t ∈ db.tasks, t.id ≠ taskId) := by
  constructor
  · intro db' h
    unfold deleteTask at h
    split at h
    · simp at h
    · injection h with h
      subst h
      refine ⟨rfl, rfl, rfl, fun t => ?_⟩
      simp [List.mem_filter]
  · constructor
    · intro h t ht hid
      unfold deleteTask at h
      rw [if_neg (by simp [List.any_eq_true]; exact ⟨t, ht, hid⟩)] at h
      simp at h
    · intro hall
      unfold deleteTask
      rw [if_pos]
      simp only [Bool.not_eq_true', List.any_eq_false]
      intro t ht
      simpa using hall t ht

/-- Witness for C6's amended theorem at the linked database. -/
theorem delete_removes_only_task_row_witness :
    (dbLinkedAfter.tags = dbLinked.tags ∧
      dbLinkedAfter.task_tags = dbLinked.task_tags ∧
      dbLinkedAfter.time_entries = dbLinked.time_entries ∧
      ∀ t : Task, t ∈ dbLinkedAfter.tasks ↔ t ∈ dbLinked.tasks ∧ t.id ≠ 1) ∧
    (deleteTask dbLinked 99 = .err .notFound ↔ ∀ t ∈ dbLinked.tasks, t.id ≠ 99) :=
  ⟨(delete_removes_only_task_row dbLinked 1).1 dbLinkedAfter (by decide),
   (delete_removes_only_task_row dbLinked 99).2⟩

/-! ### Claim C2: stop references a column the schema does not have -/

/-- C2: every invocation of stop first executes a SELECT whose WHERE clause
names end_time, a column init_db does not give time_entries; sqlite3 raises
OperationalError, so stop neither fails with NoActiveSession on an empty
ledger nor closes the open entry of a running one. -/
theorem stop_always_operational_error :
    stop dbEmpty 100 = .err (.operationalError "end_time") ∧
    stop dbOpenEntry 100 = .err (.operationalError "end_time") ∧
    "end_time" ∉ timeEntriesColumns ∧
    CliError.operationalError "end_time" ≠ .noActiveSession := by
  exact ⟨by decide, by decide, by decide, by decide⟩

/-! ### Claim C3: setStatus references a column the schema does not have -/

/-- C3: the status command's UPDATE names completed_at, a column init_db does
not give tasks; on an existing task both directions of the claimed round trip
raise OperationalError instead of updating anything. -/
theorem set_status_always_operational_error :
    setStatus dbOneTask 1 "completed" 50 = .err (.operationalError "completed_at") ∧
    setStatus dbOneTask 1 "pending" 60 = .err (.operationalError "completed_at") ∧
    "completed_at" ∉ tasksColumns ∧
    CliError.operationalError "completed_at" ≠ .notFound := by
  exact ⟨by decide, by decide, by decide, by decide⟩

/-! ### Claim C5: completion rate over an empty period -/

/-- C5: with zero tasks in the period, the overview's completion rate is SQL
NULL (AVG over no rows), not 0, and rendering it with the %.1f format spec
fails with a TypeError instead of reporting 0. -/
theorem completion_rate_null_on_empty_period :
    completionRate dbEmpty 0 = none ∧
    completionRate dbOneTask 10 = none ∧
    renderCompletionRate (completionRate dbEmpty 0) = .err .formatTypeError ∧
    (none : Option ℚ) ≠ some 0 := by
  exact ⟨by decide, by decide, by decide, by decide⟩

/-! ### Claim C9: edit applies scalar fields but crashes on tags -/

/-- C9: edit applies exactly the supplied scalar fields, reports NotFound for
an absent id and a distinct no-op when nothing is supplied; but supplying
tags makes its UPDATE name the nonexistent column "tags", an
OperationalError, instead of applying the tags. -/
theorem edit_tags_operational_error :
    edit dbOneTask 1 none none none none (some "x") =
      .err (.operationalError "tags") ∧
    "tags" ∉ tasksColumns ∧
    edit dbOneTask 1 (some "T2") none none none none =
      .ok ⟨[⟨1, "T2", none, none, none, "pending", 0⟩], [], [], []⟩ ∧
    edit dbOneTask 1 none none none none none = .err .noChanges ∧
    edit dbOneTask 99 (some "T2") none none none none = .err .notFound := by
  exact ⟨by decide, by decide, by decide, by decide, by decide⟩

/-! ### Claim C4: result rows carry exactly their tag names -/

/-- The names the list query's join produces for a task are exactly the names
of the tags linked to it. -/
theorem mem_taskTagNames (db : Db) (tid : Nat) (n : String)
    (hids : (db.tags.map Tag.id).Nodup) :
    n ∈ taskTagNames db tid ↔
      ∃ tg ∈ db.tags, tg.name = n ∧ (tid, tg.id) ∈ db.task_tags := by
  unfold taskTagNames
  rw [List.mem_filterMap]
  constructor
  · rintro ⟨tt, htt, hmap⟩
    rcases List.mem_filter.mp htt with ⟨httm, htid⟩
    cases hfind : db.tags.find? (fun tg => tg.id == tt.2) with
    | none => rw [hfind] at hmap; exact Option.noConfusion hmap
    | some tg =>
      rw [hfind] at hmap
      simp at hmap
      refine ⟨tg, List.mem_of_find?_eq_some hfind, hmap, ?_⟩
      have hid : tg.id = tt.2 := by simpa using List.find?_some hfind
      have htid' : tt.1 = tid := by simpa using htid
      have : (tid, tg.id) = tt := by
        rw [hid, ← htid']
      rwa [this]
  · rintro ⟨tg, htg, hname, hlink⟩
    refine ⟨(tid, tg.id), List.mem_filter.mpr ⟨hlink, by simp⟩, ?_⟩
    show (db.tags.find? (fun x => x.id == tg.id)).map Tag.name = some n
    rw [find?_key_eq Tag.id db.tags tg hids htg]
    simp [hname]

/-- Under the schema's uniqueness constraints a task's tag-name list has no
duplicates: each attached tag contributes its name exactly once. -/
theorem nodup_taskTagNames (db : Db) (tid : Nat) (hwf : db.wf) :
    (taskTagNames db tid).Nodup := by
  obtain ⟨-, hTagIds, hTagNames, hLinks, -⟩ := hwf
  unfold taskTagNames
  have hl : (db.task_tags.filter (fun tt => tt.1 == tid)).Nodup :=
    hLinks.filter _
  have hsnd : ((db.task_tags.filter (fun tt => tt.1 == tid)).map Prod.snd).Nodup := by
    refine List.Nodup.map_on ?_ hl
    intro x hx y hy hxy
    have hx1 : x.1 = tid := by simpa using (List.mem_filter.mp hx).2
    have hy1 : y.1 = tid := by simpa using (List.mem_filter.mp hy).2
    exact Prod.ext (hx1.trans hy1.symm) hxy
  have heq :
      (db.task_tags.filter (fun tt => tt.1 == tid)).filterMap
        (fun tt => (db.tags.find? (fun tg => tg.id == tt.2)).map Tag.name) =
      ((db.task_tags.filter (fun tt => tt.1 == tid)).map Prod.snd).filterMap
        (fun i => (db.tags.find? (fun tg => tg.id == i)).map Tag.name) := by
    rw [List.filterMap_map]
    rfl
  rw [heq]
  refine List.Nodup.filterMap ?_ hsnd
  intro i j n hi hj
  simp only [Option.mem_def] at hi hj
  cases hfi : db.tags.find? (fun tg => tg.id == i) with
  | none => rw [hfi] at hi; exact Option.noConfusion hi
  | some tg =>
    cases hfj : db.tags.find? (fun tg => tg.id == j) with
    | none => rw [hfj] at hj; exact Option.noConfusion hj
    | some tg' =>
      rw [hfi] at hi
      rw [hfj] at hj
      simp at hi hj
      have htg : tg ∈ db.tags := List.mem_of_find?_eq_some hfi
      have htg' : tg' ∈ db.tags := List.mem_of_find?_eq_some hfj
      have hnn : tg.name = tg'.name := hi.trans hj.symm
      have : tg = tg' :=
        List.inj_on_of_nodup_map hTagNames htg htg' hnn
      have hii : tg.id = i := by simpa using List.find?_some hfi
      have hjj : tg'.id = j := by simpa using List.find?_some hfj
      rw [← hii, ← hjj, this]

/-- C4: every row of the list command's output carries the GROUP_CONCAT of its
task's tag names, and that name list contains exactly the names of the tags
linked to the task, each once — for every combination of filters. -/
theorem list_rows_carry_exact_tag_names (db : Db) (sP pP tP : Option String)
    (sc : Bool) (rows : List ListRow) (r : ListRow)
    (hwf : db.wf) (hrun : listTasks db sP pP tP sc = .ok rows) (hr : r ∈ rows) :
    r.tag_names = groupConcatNames db r.task.id ∧
      (∀ n, n ∈ taskTagNames db r.task.id ↔
        ∃ tg ∈ db.tags, tg.name = n ∧ (r.task.id, tg.id) ∈ db.task_tags) ∧
      (taskTagNames db r.task.id).Nodup := by
  unfold listTasks at hrun
  split at hrun
  · simp at hrun
  split at hrun
  · simp at hrun
  injection hrun with hrows
  subst hrows
  rcases List.mem_map.mp hr with ⟨t, -, rfl⟩
  exact ⟨rfl,
    fun n => mem_taskTagNames db t.id n hwf.2.1,
    nodup_taskTagNames db t.id hwf⟩

/-- Witness for C4 at the x, y, z demonstration database. -/
theorem list_rows_carry_exact_tag_names_witness :
    rowXYZ.tag_names = groupConcatNames dbTagDemo rowXYZ.task.id ∧
      (∀ n, n ∈ taskTagNames dbTagDemo rowXYZ.task.id ↔
        ∃ tg ∈ dbTagDemo.tags, tg.name = n ∧
          (rowXYZ.task.id, tg.id) ∈ dbTagDemo.task_tags) ∧
      (taskTagNames dbTagDemo rowXYZ.task.id).Nodup :=
  list_rows_carry_exact_tag_names dbTagDemo none none none true [rowXYZ] rowXYZ
    (by decide) (by decide) (by decide)

/-! ### Claim C8: the tag resolver -/

/-- In a tag table with Nodup names, looking a member tag up by its own name
yields its id. -/
theorem idOfName_eq (st : TagsState) (tg : Tag)
    (hnd : (st.tags.map Tag.name).Nodup) (htg : tg ∈ st.tags) :
    idOfName st tg.name = tg.id := by
  unfold idOfName
  rw [find?_key_eq Tag.name st.tags tg hnd htg]

/-- The inductive invariant of the resolver loop: the final state stays
well formed, old rows persist, each created row carries created_at = now and
a retained name absent from the incoming table, and the returned ids are the
retained names resolved, in order, against the final table. -/
theorem getOrCreateTagsGo_spec (now : Nat) (raw : List String) (st : TagsState)
    (hwf : st.wf) :
    (getOrCreateTagsGo now st raw).2.wf ∧
    (∀ tg ∈ st.tags, tg ∈ (getOrCreateTagsGo now st raw).2.tags) ∧
    (∀ tg ∈ (getOrCreateTagsGo now st raw).2.tags, tg ∈ st.tags ∨
      (tg.created_at = now ∧
        tg.name ∈ (raw.map pyStrip).filter (fun x => x != "") ∧
        ∀ tg₀ ∈ st.tags, tg₀.name ≠ tg.name)) ∧
    (getOrCreateTagsGo now st raw).1 =
      ((raw.map pyStrip).filter (fun x => x != "")).map
        (idOfName (getOrCreateTagsGo now st raw).2) := by
  induction raw generalizing st with
  | nil =>
    exact ⟨hwf, fun tg h => h, fun tg h => Or.inl h, rfl⟩
  | cons n rest ih =>
    by_cases hn : pyStrip n = ""
    · have hgo : getOrCreateTagsGo now st (n :: rest) =
          getOrCreateTagsGo now st rest := by
        simp only [getOrCreateTagsGo]
        simp [hn]
      have hnames : ((n :: rest).map pyStrip).filter (fun x => x != "") =
          (rest.map pyStrip).filter (fun x => x != "") := by
        simp [hn]
      rw [hgo, hnames]
      exact ih st hwf
    · have hnames : ((n :: rest).map pyStrip).filter (fun x => x != "") =
          pyStrip n :: (rest.map pyStrip).filter (fun x => x != "") := by
        simp [hn]
      cases hfind : st.tags.find? (fun tg => tg.name == pyStrip n) with
      | some tg =>
        have hgo : getOrCreateTagsGo now st (n :: rest) =
            (tg.id :: (getOrCreateTagsGo now st rest).1,
              (getOrCreateTagsGo now st rest).2) := by
          simp only [getOrCreateTagsGo]
          simp [hn, hfind]
        obtain ⟨ihwf, ihold, ihnew, ihids⟩ := ih st hwf
        have htgmem : tg ∈ st.tags := List.mem_of_find?_eq_some hfind
        have htgname : tg.name = pyStrip n := by
          simpa using List.find?_some hfind
        obtain ⟨ihnd, -⟩ := id ihwf
        rw [hgo, hnames]
        refine ⟨ihwf, ihold, ?_, ?_⟩
        · intro tg' h'
          rcases ihnew tg' h' with h | ⟨hc, hm, hne⟩
          · exact Or.inl h
          · exact Or.inr ⟨hc, List.mem_cons_of_mem _ hm, hne⟩
        · have hid : idOfName (getOrCreateTagsGo now st rest).2 (pyStrip n) = tg.id := by
            rw [← htgname]
            exact idOfName_eq _ tg ihnd (ihold tg htgmem)
          rw [List.map_cons, hid, ← ihids]
      | none =>
        have hnotin : ∀ tg₀ ∈ st.tags, tg₀.name ≠ pyStrip n := by
          intro tg₀ h₀ hEq
          have hx := List.find?_eq_none.mp hfind tg₀ h₀
          simp [hEq] at hx
        obtain ⟨hnd, hlt⟩ := hwf
        have hwf1 : TagsState.wf
            ⟨st.tags ++ [⟨st.nextId, pyStrip n, none, now⟩], st.nextId + 1⟩ := by
          constructor
          · rw [List.map_append]
            refine List.Nodup.append hnd (List.nodup_singleton _) ?_
            intro a ha hb
            simp only [List.map_cons, List.map_nil, List.mem_singleton] at hb
            rcases List.mem_map.mp ha with ⟨tg₀, h₀, rfl⟩
            exact hnotin tg₀ h₀ hb
          · intro tg₀ h₀
            rcases List.mem_append.mp h₀ with h | h
            · exact Nat.lt_succ_of_lt (hlt tg₀ h)
            · simp only [List.mem_singleton] at h
              subst h
              exact Nat.lt_succ_self _
        have hgo : getOrCreateTagsGo now st (n :: rest) =
            (st.nextId ::
              (getOrCreateTagsGo now
                ⟨st.tags ++ [⟨st.nextId, pyStrip n, none, now⟩], st.nextId + 1⟩ rest).1,
              (getOrCreateTagsGo now
                ⟨st.tags ++ [⟨st.nextId, pyStrip n, none, now⟩], st.nextId + 1⟩ rest).2) := by
          simp only [getOrCreateTagsGo]
          simp [hn, hfind]
        obtain ⟨ihwf, ihold, ihnew, ihids⟩ :=
          ih ⟨st.tags ++ [⟨st.nextId, pyStrip n, none, now⟩], st.nextId + 1⟩ hwf1
        have hnewmem : (⟨st.nextId, pyStrip n, none, now⟩ : Tag) ∈
            (st.tags ++ [⟨st.nextId, pyStrip n, none, now⟩]) :=
          List.mem_append.mpr (Or.inr (List.mem_singleton.mpr rfl))
        obtain ⟨ihnd, -⟩ := id ihwf
        rw [hgo, hnames]
        refine ⟨ihwf, ?_, ?_, ?_⟩
        · intro tg₀ h₀
          exact ihold tg₀ (List.mem_append.mpr (Or.inl h₀))
        · intro tg' h'
          rcases ihnew tg' h' with h | ⟨hc, hm, hne⟩
          · rcases List.mem_append.mp h with h | h
            · exact Or.inl h
            · simp only [List.mem_singleton] at h
              subst h
              exact Or.inr ⟨rfl, List.mem_cons_self _ _, fun tg₀ h₀ => hnotin tg₀ h₀⟩
          · refine Or.inr ⟨hc, List.mem_cons_of_mem _ hm, fun tg₀ h₀ => ?_⟩
            exact hne tg₀ (List.mem_append.mpr (Or.inl h₀))
        · have hid : idOfName
              (getOrCreateTagsGo now
                ⟨st.tags ++ [⟨st.nextId, pyStrip n, none, now⟩], st.nextId + 1⟩ rest).2
              (pyStrip n) = st.nextId := by
            have := idOfName_eq _ (⟨st.nextId, pyStrip n, none, now⟩ : Tag) ihnd
              (ihold _ hnewmem)
            simpa using this
          rw [List.map_cons, hid, ← ihids]

/-- C8 counterexample: on the input "x,x" the resolver creates the tag once
but returns its identifier twice — the identifier does appear twice in the
returned sequence. -/
theorem resolver_duplicate_ids_in_output :
    (getOrCreateTags stEmptyTags 7 "x,x").1 = [1, 1] ∧
    ¬ ((getOrCreateTags stEmptyTags 7 "x,x").1.Nodup) := by
  exact ⟨by decide, by decide⟩

/-- C8 amended: the resolver trims each name, skips empties, resolves each
retained occurrence (in input order) to the id of the uniquely-named tag row
in the final table, creates a row with created_at = now only for names absent
from the table (so duplicate input names collapse to one create, the later
occurrences finding the row the first created) — but each retained occurrence
contributes its own element, so one identifier can appear several times. -/
theorem resolver_ids_in_order_single_create (st : TagsState) (now : Nat)
    (s : String) (hwf : st.wf) :
    (getOrCreateTags st now s).1 =
      (retainedNames s).map (idOfName (getOrCreateTags st now s).2) ∧
    ((getOrCreateTags st now s).2.tags.map Tag.name).Nodup ∧
    (∀ tg ∈ st.tags, tg ∈ (getOrCreateTags st now s).2.tags) ∧
    (∀ tg ∈ (getOrCreateTags st now s).2.tags, tg ∈ st.tags ∨
      (tg.created_at = now ∧ tg.name ∈ retainedNames s ∧
        ∀ tg₀ ∈ st.tags, tg₀.name ≠ tg.name)) := by
  unfold getOrCreateTags
  split
  · next hs =>
    subst hs
    have hret : retainedNames "" = [] := by decide
    obtain ⟨hnd, -⟩ := hwf
    exact ⟨by simp [hret], hnd, fun tg h => h, fun tg h => Or.inl h⟩
  · have h := getOrCreateTagsGo_spec now (splitComma s) st hwf
    obtain ⟨hwf', hold, hnew, hids⟩ := h
    obtain ⟨hnd', -⟩ := hwf'
    exact ⟨hids, hnd', hold, hnew⟩

/-- Witness for C8's amended theorem: resolving "x,y" from an empty table. -/
theorem resolver_ids_in_order_single_create_witness :
    (getOrCreateTags stEmptyTags 7 "x,y").1 =
      (retainedNames "x,y").map (idOfName (getOrCreateTags stEmptyTags 7 "x,y").2) ∧
    ((getOrCreateTags stEmptyTags 7 "x,y").2.tags.map Tag.name).Nodup ∧
    (∀ tg ∈ stEmptyTags.tags, tg ∈ (getOrCreateTags stEmptyTags 7 "x,y").2.tags) ∧
    (∀ tg ∈ (getOrCreateTags stEmptyTags 7 "x,y").2.tags, tg ∈ stEmptyTags.tags ∨
      (tg.created_at = 7 ∧ tg.name ∈ retainedNames "x,y" ∧
        ∀ tg₀ ∈ stEmptyTags.tags, tg₀.name ≠ tg.name)) :=
  resolver_ids_in_order_single_create stEmptyTags 7 "x,y" (by decide)

/-! ### Claim C10: orphaned time entries and the inner joins -/

/-- The inner join keeps exactly the entries whose task exists: the joined
output of a list of entries has one row per entry with a matching task. -/
theorem length_filterMap_join {β : Type} (db : Db) (g : TimeEntry → Task → β)
    (l : List TimeEntry) :
    (l.filterMap (fun te => (joinedTask db te).map (g te))).length =
      (l.filter (fun te => db.tasks.any (fun t => t.id == te.task_id))).length := by
  induction l with
  | nil => rfl
  | cons e es ih =>
    cases hf : joinedTask db e with
    | some t =>
      have hp : db.tasks.find? (fun x => x.id == e.task_id) = some t := hf
      have hpt : (t.id == e.task_id) = true := by simpa using List.find?_some hp
      have hany : db.tasks.any (fun t => t.id == e.task_id) = true :=
        List.any_eq_true.mpr ⟨t, List.mem_of_find?_eq_some hp, hpt⟩
      simp [List.filterMap_cons, List.filter_cons, hf, hany, ih]
    | none =>
      have hp : db.tasks.find? (fun x => x.id == e.task_id) = none := hf
      have hany : db.tasks.any (fun t => t.id == e.task_id) = false := by
        simp only [List.any_eq_false]
        intro t ht
        have hx := List.find?_eq_none.mp hp t ht
        simpa using hx
      simp [List.filterMap_cons, List.filter_cons, hf, hany, ih]

/-- C10: an entry whose task_id references no existing task is omitted by the
three inner-join queries of the time command: no listed row carries its id,
every export row stems from an entry with an existing task (and the export has
exactly one row per such entry), and the orphan belongs to no group of the
per-task report. -/
theorem orphaned_entries_omitted (db : Db) (boundary : Nat) (te : TimeEntry)
    (hwf : db.wf) (hmem : te ∈ db.time_entries)
    (horph : ∀ t ∈ db.tasks, t.id ≠ te.task_id) :
    (∀ r ∈ timeListRows db, r.entry_id ≠ te.id) ∧
    (∀ r ∈ timeExportRows db, ∃ t ∈ db.tasks, ∃ e ∈ db.time_entries,
        e.task_id = t.id ∧ r = mkExportRow t e) ∧
    (timeExportRows db).length =
      (db.time_entries.filter
        (fun e => db.tasks.any (fun t => t.id == e.task_id))).length ∧
    (∀ t ∈ db.tasks, te ∉ entriesOfTask db boundary t.id) := by
  obtain ⟨-, -, -, -, hEntryIds⟩ := id hwf
  refine ⟨?_, ?_, ?_, ?_⟩
  · intro r hr heq
    rcases List.mem_filterMap.mp hr with ⟨e, he, hfe⟩
    have he' : e ∈ db.time_entries := (mem_sortBy _ _ _).mp he
    cases hf : joinedTask db e with
    | none => rw [hf] at hfe; exact Option.noConfusion hfe
    | some t =>
      rw [hf] at hfe
      simp at hfe
      have hid : e.id = te.id := by
        have : r.entry_id = e.id := by rw [← hfe]
        rw [← this, heq]
      have hete : e = te := List.inj_on_of_nodup_map hEntryIds he' hmem hid
      subst hete
      have hp : db.tasks.find? (fun x => x.id == e.task_id) = some t := hf
      have htmem : t ∈ db.tasks := List.mem_of_find?_eq_some hp
      have htid : t.id = e.task_id := by simpa using List.find?_some hp
      exact horph t htmem htid
  · intro r hr
    rcases List.mem_filterMap.mp hr with ⟨e, he, hfe⟩
    have he' : e ∈ db.time_entries := (mem_sortBy _ _ _).mp he
    cases hf : joinedTask db e with
    | none => rw [hf] at hfe; exact Option.noConfusion hfe
    | some t =>
      rw [hf] at hfe
      simp at hfe
      have hp : db.tasks.find? (fun x => x.id == e.task_id) = some t := hf
      have htmem : t ∈ db.tasks := List.mem_of_find?_eq_some hp
      have htid : t.id = e.task_id := by simpa using List.find?_some hp
      exact ⟨t, htmem, e, he', htid.symm, hfe.symm⟩
  · have hperm : (timeExportRows db).length =
        (db.time_entries.filterMap
          (fun e => (joinedTask db e).map (fun t => mkExportRow t e))).length := by
      unfold timeExportRows
      exact (((sortBy_perm startAsc db.time_entries).filterMap _).length_eq)
    rw [hperm]
    exact length_filterMap_join db (fun e t => mkExportRow t e) db.time_entries
  · intro t ht hin
    have hcond := (List.mem_filter.mp hin).2
    simp only [Bool.and_eq_true, beq_iff_eq] at hcond
    exact horph t ht hcond.1.symm

/-- Witness for C10 at a store holding one orphaned entry (task_id 99). -/
theorem orphaned_entries_omitted_witness :
    (∀ r ∈ timeListRows dbOrphan, r.entry_id ≠ orphanEntry.id) ∧
    (∀ r ∈ timeExportRows dbOrphan, ∃ t ∈ dbOrphan.tasks, ∃ e ∈ dbOrphan.time_entries,
        e.task_id = t.id ∧ r = mkExportRow t e) ∧
    (timeExportRows dbOrphan).length =
      (dbOrphan.time_entries.filter
        (fun e => dbOrphan.tasks.any (fun t => t.id == e.task_id))).length ∧
    (∀ t ∈ dbOrphan.tasks, orphanEntry ∉ entriesOfTask dbOrphan 0 t.id) :=
  orphaned_entries_omitted dbOrphan 0 orphanEntry (by decide) (by decide) (by decide)

end Corhyn
